import Mathlib

/-!
Verification of the cache-resolution logic of `app.py` (calc_bitcoin).

The development shallowly embeds the `get_rates` routine and the JSON
(de)serialization it relies on.  Python values that can flow through the
routine (parsed JSON data, `None`, strings) are represented by the `Json`
type below, with `Json.null` playing the role of Python's `None` (as in
Python, where `json.loads` maps JSON `null` to `None`).  The external
world (Redis client, upstream HTTP API, wall clock) is an explicit
environment; Python exceptions are explicit values of type `Exc`.
-/

/-- JSON values as they flow through `app.py`.  Numbers are kept as their
raw literal text (uninterpreted), since the program never computes with
them — it only passes them between the API, the caches and the caller.
This sidesteps float semantics while preserving value identity. -/
inductive Json where
  | null : Json
  | bool (b : Bool) : Json
  | num (s : String) : Json
  | str (s : String) : Json
  | arr (elems : List Json) : Json
  | obj (members : List (String × Json)) : Json
deriving Repr

/-- The opening-brace character, written via its code point. -/
def lbrace : Char := Char.ofNat 123

/-- The closing-brace character, written via its code point. -/
def rbrace : Char := Char.ofNat 125

/-- Characters that may appear in a JSON number literal. -/
def isNumChar (c : Char) : Bool :=
  c.isDigit || c = '-' || c = '+' || c = '.' || c = 'e' || c = 'E'

/-- Escape one character for inclusion in a JSON string literal (the
model escapes the quote and the backslash; other characters are kept
verbatim). -/
def escChar (c : Char) : List Char :=
  if c = '"' ∨ c = '\\' then ['\\', c] else [c]

/-- Escape a character sequence for a JSON string literal body. -/
def escStr : List Char → List Char
  | [] => []
  | c :: rest => escChar c ++ escStr rest

/-- Render a string as a quoted JSON string literal. -/
def renderStr (s : String) : List Char :=
  '"' :: (escStr s.data ++ ['"'])

mutual

/-- Render a JSON value as text (compact form, as a character list). -/
def renderJson : Json → List Char
  | .null => 'n' :: 'u' :: 'l' :: ['l']
  | .bool true => 't' :: 'r' :: 'u' :: ['e']
  | .bool false => 'f' :: 'a' :: 'l' :: 's' :: ['e']
  | .num s => s.data
  | .str s => renderStr s
  | .arr es => '[' :: renderElems es
  | .obj ms => lbrace :: renderMembers ms

/-- Render array elements followed by the closing bracket. -/
def renderElems : List Json → List Char
  | [] => [']']
  | [v] => renderJson v ++ [']']
  | v :: vs => renderJson v ++ ',' :: renderElems vs

/-- Render object members followed by the closing brace. -/
def renderMembers : List (String × Json) → List Char
  | [] => [rbrace]
  | [(k, v)] => renderStr k ++ ':' :: (renderJson v ++ [rbrace])
  | (k, v) :: ms => renderStr k ++ ':' :: (renderJson v ++ ',' :: renderMembers ms)

end

/-- A raw number literal is well formed when it is a nonempty run of
number characters (so that rendering it back is unambiguous). -/
def numOK (s : String) : Bool :=
  !s.data.isEmpty && s.data.all isNumChar

mutual

/-- Well-formedness of a JSON value: every number literal inside is a
nonempty run of number characters. -/
def jsonWF : Json → Bool
  | .null => true
  | .bool _ => true
  | .num s => numOK s
  | .str _ => true
  | .arr es => jsonWFList es
  | .obj ms => jsonWFMembers ms

/-- Well-formedness of a list of JSON values. -/
def jsonWFList : List Json → Bool
  | [] => true
  | v :: vs => jsonWF v && jsonWFList vs

/-- Well-formedness of a list of object members. -/
def jsonWFMembers : List (String × Json) → Bool
  | [] => true
  | (_, v) :: ms => jsonWF v && jsonWFMembers ms

end

/-- Parse the body of a JSON string literal (the opening quote already
consumed), returning the decoded characters and the rest of the input. -/
def parseStrBody : List Char → Option (List Char × List Char)
  | [] => none
  | c :: rest =>
    if c = '"' then some ([], rest)
    else if c = '\\' then
      match rest with
      | [] => none
      | d :: rest2 =>
        match parseStrBody rest2 with
        | some (s, r) => some (d :: s, r)
        | none => none
    else
      match parseStrBody rest with
      | some (s, r) => some (c :: s, r)
      | none => none

mutual

/-- Parse one JSON value, fuel-bounded.  Returns the value and the
remaining input. -/
def parseVal : Nat → List Char → Option (Json × List Char)
  | 0, _ => none
  | Nat.succ f, cs =>
    match cs with
    | [] => none
    | c :: rest =>
      if c = 'n' then
        match rest with
        | 'u' :: 'l' :: 'l' :: r => some (.null, r)
        | _ => none
      else if c = 't' then
        match rest with
        | 'r' :: 'u' :: 'e' :: r => some (.bool true, r)
        | _ => none
      else if c = 'f' then
        match rest with
        | 'a' :: 'l' :: 's' :: 'e' :: r => some (.bool false, r)
        | _ => none
      else if c = '"' then
        match parseStrBody rest with
        | some (s, r) => some (.str (String.mk s), r)
        | none => none
      else if c = '[' then
        match parseElems f rest with
        | some (vs, r) => some (.arr vs, r)
        | none => none
      else if c = lbrace then
        match parseMembers f rest with
        | some (ms, r) => some (.obj ms, r)
        | none => none
      else if isNumChar c then
        some (.num (String.mk ((c :: rest).takeWhile isNumChar)),
              (c :: rest).dropWhile isNumChar)
      else none

/-- Parse array elements up to and including the closing bracket. -/
def parseElems : Nat → List Char → Option (List Json × List Char)
  | 0, _ => none
  | Nat.succ f, cs =>
    match cs with
    | [] => none
    | c :: rest =>
      if c = ']' then some ([], rest)
      else
        match parseVal f (c :: rest) with
        | some (v, r) =>
          match r with
          | [] => none
          | d :: r2 =>
            if d = ',' then
              match parseElems f r2 with
              | some (vs, r3) => some (v :: vs, r3)
              | none => none
            else if d = ']' then some ([v], r2)
            else none
        | none => none

/-- Parse object members up to and including the closing brace. -/
def parseMembers : Nat → List Char → Option (List (String × Json) × List Char)
  | 0, _ => none
  | Nat.succ f, cs =>
    match cs with
    | [] => none
    | c :: rest =>
      if c = rbrace then some ([], rest)
      else if c = '"' then
        match parseStrBody rest with
        | some (k, r) =>
          match r with
          | [] => none
          | d :: r2 =>
            if d = ':' then
              match parseVal f r2 with
              | some (v, r3) =>
                match r3 with
                | [] => none
                | e :: r4 =>
                  if e = ',' then
                    match parseMembers f r4 with
                    | some (ms, r5) => some ((String.mk k, v) :: ms, r5)
                    | none => none
                  else if e = rbrace then some ([(String.mk k, v)], r4)
                  else none
              | none => none
            else none
        | none => none
      else none

end

/-- Model of `json.dumps` as used by `app.py` (compact rendering of the
value written to the external cache). -/
def Json.dumps (v : Json) : String := String.mk (renderJson v)

/-- Model of `json.loads`: parse a complete JSON document, `none` when
the text is not a valid document (in Python a raised `ValueError`). -/
def Json.loads (s : String) : Option Json :=
  match parseVal (s.length + 1) s.data with
  | some (v, []) => some v
  | _ => none

/-- The input that follows a rendered value must not begin with a number
character (otherwise the number scanner would swallow it). -/
def restOK : List Char → Bool
  | [] => true
  | c :: _ => !isNumChar c

/-- Parsing the escaped body of a string literal recovers the original
characters and leaves the input after the closing quote untouched. -/
theorem parseStrBody_escStr : ∀ (s rest : List Char),
    parseStrBody (escStr s ++ '"' :: rest) = some (s, rest)
  | [], rest => by
      cases rest with
      | nil => rfl
      | cons d t => rfl
  | c :: s, rest => by
      by_cases h : c = '"' ∨ c = '\\'
      · have h1 : escChar c = ['\\', c] := by simp [escChar, h]
        simp [escStr, h1, parseStrBody, parseStrBody_escStr s rest]
      · push_neg at h
        have h1 : escChar c = [c] := by simp [escChar, h.1, h.2]
        have hne : escStr (c :: s) ++ '"' :: rest = c :: (escStr s ++ '"' :: rest) := by
          simp [escStr, h1]
        rw [hne]
        cases hs : escStr s ++ '"' :: rest with
        | nil => simp at hs
        | cons d t =>
            have ih := parseStrBody_escStr s rest
            rw [hs] at ih
            simp [parseStrBody, h.1, h.2, ih]

/-- The number scanner splits a run of number characters followed by a
non-number character exactly at the boundary. -/
theorem takeWhile_append_isNumChar : ∀ (l r : List Char),
    l.all isNumChar = true → restOK r = true →
    (l ++ r).takeWhile isNumChar = l ∧ (l ++ r).dropWhile isNumChar = r
  | [], r, _, hr => by
      cases r with
      | nil => simp
      | cons c t =>
          have hc : isNumChar c = false := by simpa [restOK] using hr
          simp [List.takeWhile_cons, List.dropWhile_cons, hc]
  | c :: l, r, hl, hr => by
      have h1 : isNumChar c = true := by
        simp [List.all_cons] at hl; exact hl.1
      have h2 : l.all isNumChar = true := by
        simp only [List.all_cons, Bool.and_eq_true] at hl; exact hl.2
      have ih := takeWhile_append_isNumChar l r h2 hr
      simp [List.takeWhile_cons, List.dropWhile_cons, h1, ih.1, ih.2]

/-- Every well-formed value renders to a nonempty text that does not
begin with the array terminator. -/
theorem renderJson_head (v : Json) (h : jsonWF v = true) :
    ∃ c t, renderJson v = c :: t ∧ ¬c = ']' := by
  cases v with
  | null => exact ⟨'n', ['u', 'l', 'l'], rfl, by decide⟩
  | bool b =>
      cases b with
      | true => exact ⟨'t', ['r', 'u', 'e'], rfl, by decide⟩
      | false => exact ⟨'f', ['a', 'l', 's', 'e'], rfl, by decide⟩
  | num s =>
      have hOK : numOK s = true := by simpa [jsonWF] using h
      have hne : s.data.isEmpty = false := by
        simp only [numOK, Bool.and_eq_true, Bool.not_eq_true'] at hOK
        exact hOK.1
      have hall : s.data.all isNumChar = true := by
        simp only [numOK, Bool.and_eq_true] at hOK
        exact hOK.2
      cases hd : s.data with
      | nil => rw [hd] at hne; simp at hne
      | cons c t =>
          have hc : isNumChar c = true := by
            rw [hd] at hall
            simp only [List.all_cons, Bool.and_eq_true] at hall
            exact hall.1
          refine ⟨c, t, by simp [renderJson, hd], ?_⟩
          rintro rfl
          revert hc
          decide
  | str s => exact ⟨'"', escStr s.data ++ ['"'], by simp [renderJson, renderStr], by decide⟩
  | arr es => exact ⟨'[', renderElems es, rfl, by decide⟩
  | obj ms => exact ⟨lbrace, renderMembers ms, rfl, by decide⟩

mutual

/-- Parsing the rendering of a well-formed value recovers the value and
leaves the rest of the input untouched, given enough fuel. -/
theorem parseVal_render : ∀ (v : Json) (rest : List Char) (f : Nat),
    jsonWF v = true → restOK rest = true → (renderJson v).length < f →
    parseVal f (renderJson v ++ rest) = some (v, rest)
  | .null, rest, f, _, _, hf => by
      cases f with
      | zero => exact absurd hf (Nat.not_lt_zero _)
      | succ f => simp [renderJson, parseVal]
  | .bool true, rest, f, _, _, hf => by
      cases f with
      | zero => exact absurd hf (Nat.not_lt_zero _)
      | succ f => simp [renderJson, parseVal]
  | .bool false, rest, f, _, _, hf => by
      cases f with
      | zero => exact absurd hf (Nat.not_lt_zero _)
      | succ f => simp [renderJson, parseVal]
  | .num s, rest, f, hwf, hrest, hf => by
      have hOK : numOK s = true := by simpa [jsonWF] using hwf
      have hne : s.data.isEmpty = false := by
        simp only [numOK, Bool.and_eq_true, Bool.not_eq_true'] at hOK
        exact hOK.1
      have hall : s.data.all isNumChar = true := by
        simp only [numOK, Bool.and_eq_true] at hOK
        exact hOK.2
      cases f with
      | zero => exact absurd hf (Nat.not_lt_zero _)
      | succ f =>
          cases hd : s.data with
          | nil => rw [hd] at hne; simp at hne
          | cons c t =>
              have hc : isNumChar c = true := by
                rw [hd] at hall
                simp only [List.all_cons, Bool.and_eq_true] at hall
                exact hall.1
              have h1 : ¬c = 'n' := by rintro rfl; revert hc; decide
              have h2 : ¬c = 't' := by rintro rfl; revert hc; decide
              have h3 : ¬c = 'f' := by rintro rfl; revert hc; decide
              have h4 : ¬c = '"' := by rintro rfl; revert hc; decide
              have h5 : ¬c = '[' := by rintro rfl; revert hc; decide
              have h6 : ¬c = lbrace := by rintro rfl; revert hc; decide
              have htw := takeWhile_append_isNumChar s.data rest hall hrest
              have hgoal : renderJson (.num s) ++ rest = c :: (t ++ rest) := by
                simp [renderJson, hd]
              rw [hgoal]
              simp only [parseVal]
              rw [if_neg h1, if_neg h2, if_neg h3, if_neg h4, if_neg h5, if_neg h6,
                if_pos hc]
              rw [← List.cons_append, ← hd, htw.1, htw.2]
  | .str s, rest, f, _, _, hf => by
      cases f with
      | zero => exact absurd hf (Nat.not_lt_zero _)
      | succ f =>
          have hgoal : renderJson (.str s) ++ rest = '"' :: (escStr s.data ++ '"' :: rest) := by
            simp [renderJson, renderStr]
          rw [hgoal]
          simp only [parseVal]
          have hk : String.mk s.data = s := rfl
          simp [parseStrBody_escStr s.data rest, hk]
  | .arr es, rest, f, hwf, hrest, hf => by
      cases f with
      | zero => exact absurd hf (Nat.not_lt_zero _)
      | succ f =>
          have hwf' : jsonWFList es = true := by simpa [jsonWF] using hwf
          have hfuel : (renderElems es).length < f := by
            simp only [renderJson, List.length_cons] at hf
            omega
          have hgoal : renderJson (.arr es) ++ rest = '[' :: (renderElems es ++ rest) := by
            simp [renderJson]
          rw [hgoal]
          have hrec := parseElems_render es rest f hwf' hfuel
          simp [parseVal, hrec]
  | .obj ms, rest, f, hwf, hrest, hf => by
      cases f with
      | zero => exact absurd hf (Nat.not_lt_zero _)
      | succ f =>
          have hwf' : jsonWFMembers ms = true := by simpa [jsonWF] using hwf
          have hfuel : (renderMembers ms).length < f := by
            simp only [renderJson, List.length_cons] at hf
            omega
          have hgoal : renderJson (.obj ms) ++ rest = lbrace :: (renderMembers ms ++ rest) := by
            simp [renderJson]
          rw [hgoal]
          have hrec := parseMembers_render ms rest f hwf' hfuel
          simp [parseVal, hrec, (by decide : ¬lbrace = 'n'), (by decide : ¬lbrace = 't'),
            (by decide : ¬lbrace = 'f'), (by decide : ¬lbrace = '"'),
            (by decide : ¬lbrace = '[')]
termination_by v _ _ _ _ _ => sizeOf v

/-- Parsing the rendering of well-formed array elements recovers the
element list, given enough fuel. -/
theorem parseElems_render : ∀ (es : List Json) (rest : List Char) (f : Nat),
    jsonWFList es = true → (renderElems es).length < f →
    parseElems f (renderElems es ++ rest) = some (es, rest)
  | [], rest, f, _, hf => by
      cases f with
      | zero => exact absurd hf (Nat.not_lt_zero _)
      | succ f => simp [renderElems, parseElems]
  | [v], rest, f, hwf, hf => by
      have hv : jsonWF v = true := by
        simp only [jsonWFList, Bool.and_eq_true] at hwf
        exact hwf.1
      cases f with
      | zero => exact absurd hf (Nat.not_lt_zero _)
      | succ f =>
          obtain ⟨c, t, hct, hcne⟩ := renderJson_head v hv
          have hfuel : (renderJson v).length < f := by
            simp only [renderElems, List.length_append, List.length_cons,
              List.length_nil] at hf
            omega
          have hinput : renderElems [v] ++ rest = c :: (t ++ ']' :: rest) := by
            simp [renderElems, hct]
          rw [hinput]
          simp only [parseElems]
          rw [if_neg hcne]
          have hpv : parseVal f (c :: (t ++ ']' :: rest)) = some (v, ']' :: rest) := by
            rw [← List.cons_append, ← hct]
            exact parseVal_render v (']' :: rest) f hv rfl hfuel
          rw [hpv]
          simp
  | v :: v' :: vs, rest, f, hwf, hf => by
      have hv : jsonWF v = true := by
        simp only [jsonWFList, Bool.and_eq_true] at hwf
        exact hwf.1
      have htail : jsonWFList (v' :: vs) = true := by
        simp only [jsonWFList, Bool.and_eq_true] at hwf ⊢
        exact hwf.2
      cases f with
      | zero => exact absurd hf (Nat.not_lt_zero _)
      | succ f =>
          obtain ⟨c, t, hct, hcne⟩ := renderJson_head v hv
          have hfuel1 : (renderJson v).length < f := by
            simp only [renderElems, List.length_append, List.length_cons] at hf
            omega
          have hfuel2 : (renderElems (v' :: vs)).length < f := by
            simp only [renderElems, List.length_append, List.length_cons] at hf
            omega
          have hinput : renderElems (v :: v' :: vs) ++ rest
              = c :: (t ++ ',' :: (renderElems (v' :: vs) ++ rest)) := by
            simp [renderElems, hct]
          rw [hinput]
          simp only [parseElems]
          rw [if_neg hcne]
          have hpv : parseVal f (c :: (t ++ ',' :: (renderElems (v' :: vs) ++ rest)))
              = some (v, ',' :: (renderElems (v' :: vs) ++ rest)) := by
            rw [← List.cons_append, ← hct]
            exact parseVal_render v _ f hv rfl hfuel1
          rw [hpv]
          simp [parseElems_render (v' :: vs) rest f htail hfuel2]
termination_by es _ _ _ _ => sizeOf es

/-- Parsing the rendering of well-formed object members recovers the
member list, given enough fuel. -/
theorem parseMembers_render : ∀ (ms : List (String × Json)) (rest : List Char) (f : Nat),
    jsonWFMembers ms = true → (renderMembers ms).length < f →
    parseMembers f (renderMembers ms ++ rest) = some (ms, rest)
  | [], rest, f, _, hf => by
      cases f with
      | zero => exact absurd hf (Nat.not_lt_zero _)
      | succ f => simp [renderMembers, parseMembers]
  | [(k, v)], rest, f, hwf, hf => by
      have hv : jsonWF v = true := by
        simp only [jsonWFMembers, Bool.and_eq_true] at hwf
        exact hwf.1
      cases f with
      | zero => exact absurd hf (Nat.not_lt_zero _)
      | succ f =>
          have hfuel : (renderJson v).length < f := by
            simp only [renderMembers, List.length_append, List.length_cons] at hf
            omega
          have hinput : renderMembers [(k, v)] ++ rest
              = '"' :: (escStr k.data ++ '"' :: (':' :: (renderJson v ++ rbrace :: rest))) := by
            simp [renderMembers, renderStr]
          rw [hinput]
          have hsb := parseStrBody_escStr k.data (':' :: (renderJson v ++ rbrace :: rest))
          have hpv := parseVal_render v (rbrace :: rest) f hv rfl hfuel
          have hk : String.mk k.data = k := rfl
          simp [parseMembers, hsb, hpv, hk, (by decide : ¬rbrace = ','),
            (by decide : ¬('"' : Char) = rbrace)]
  | (k, v) :: m' :: ms, rest, f, hwf, hf => by
      have hv : jsonWF v = true := by
        simp only [jsonWFMembers, Bool.and_eq_true] at hwf
        exact hwf.1
      have htail : jsonWFMembers (m' :: ms) = true := by
        simp only [jsonWFMembers, Bool.and_eq_true] at hwf ⊢
        exact hwf.2
      cases f with
      | zero => exact absurd hf (Nat.not_lt_zero _)
      | succ f =>
          have hfuel1 : (renderJson v).length < f := by
            simp only [renderMembers, List.length_append, List.length_cons] at hf
            omega
          have hfuel2 : (renderMembers (m' :: ms)).length < f := by
            simp only [renderMembers, List.length_append, List.length_cons] at hf
            omega
          have hinput : renderMembers ((k, v) :: m' :: ms) ++ rest
              = '"' :: (escStr k.data ++ '"' :: (':' ::
                  (renderJson v ++ ',' :: (renderMembers (m' :: ms) ++ rest)))) := by
            simp [renderMembers, renderStr]
          rw [hinput]
          have hsb := parseStrBody_escStr k.data
            (':' :: (renderJson v ++ ',' :: (renderMembers (m' :: ms) ++ rest)))
          have hpv := parseVal_render v (',' :: (renderMembers (m' :: ms) ++ rest)) f hv
            rfl hfuel1
          have hrec := parseMembers_render (m' :: ms) rest f htail hfuel2
          have hk : String.mk k.data = k := rfl
          simp [parseMembers, hsb, hpv, hrec, hk,
            (by decide : ¬('"' : Char) = rbrace)]
termination_by ms _ _ _ _ => sizeOf ms

end

/-- Round trip: deserializing a serialized well-formed value gives back
the identical value. -/
theorem loads_dumps (v : Json) (h : jsonWF v = true) :
    Json.loads (Json.dumps v) = some v := by
  have hp := parseVal_render v [] ((renderJson v).length + 1) h (by decide)
    (Nat.lt_succ_self _)
  simp only [List.append_nil] at hp
  simp [Json.loads, Json.dumps, String.length, hp]

/-! ## Model of `get_rates` (`app.py`, lines 61–146)

Python exceptions are explicit values; the Redis client, the upstream
API and the wall clock are an explicit environment.  `Json.null` plays
the role of Python's `None`. -/

/-- Python truthiness of a numeric literal: some mantissa digit (before
any exponent marker) is nonzero.  (Exponent-underflow to float zero is
outside the model; no claim depends on numeric truthiness.) -/
def numTruthy (s : String) : Bool :=
  (s.data.takeWhile (fun c => c != 'e' && c != 'E')).any (fun c => c.isDigit && c != '0')

/-- Python truthiness of the values that can sit in `memory_cache['rates']`
or be produced by `json.loads`: `None` and empty containers are falsy. -/
def jsonTruthy : Json → Bool
  | .null => false
  | .bool b => b
  | .num s => numTruthy s
  | .str s => s != ""
  | .arr es => !es.isEmpty
  | .obj ms => !ms.isEmpty

/-- Exception classes that can reach `get_rates`'s handlers.  `other`
stands for every exception class that is neither `redis.RedisError` nor
`requests.exceptions.HTTPError` (`KeyError`, `TypeError`, `ValueError`,
timeouts, connection errors, ...): the handlers never distinguish among
those. -/
inductive Exc where
  | redisError
  | httpError (status : Nat)
  | other
deriving Repr, DecidableEq

/-- Which exceptions `except redis.RedisError` catches. -/
def catchRedisError : Exc → Bool
  | .redisError => true
  | _ => false

/-- Which exceptions `except Exception` catches: every class in `Exc`
(all Python exceptions used here derive from `Exception`). -/
def catchException : Exc → Bool := fun _ => true

/-- Outcome of `redis_client.get(CACHE_KEY)`: a value (`None` on a miss,
a string on a hit, since `decode_responses=True`) or a raised exception. -/
inductive RedisGet where
  | val (s : Option String)
  | exn (e : Exc)
deriving Repr

/-- The external-cache collaborator: what its `get` does, and whether
`setex` succeeds (a failing `setex` raises; the code logs and swallows
it, so it has no observable effect on the result). -/
structure RedisEnv where
  get : RedisGet
  setexOk : Bool
deriving Repr

/-- Outcome of `response.json()`: a parsed body or a raised exception. -/
inductive ApiBody where
  | ok (v : Json)
  | exn (e : Exc)
deriving Repr

/-- Outcome of `requests.get(COINGECKO_URL, timeout=10)`: an HTTP
response (status plus body behaviour) or a raised exception (timeout,
connection error, ...). -/
inductive ApiResult where
  | exn (e : Exc)
  | response (status : Nat) (body : ApiBody)
deriving Repr

/-- The world one call of `get_rates` runs in: the Redis client (`none`
models `redis_client = None` after a failed startup connection), the
upstream API's behaviour, and the current time — as seconds for
`datetime.now()` arithmetic and as the string `datetime.now().isoformat()`
produces. -/
structure Env where
  redis : Option RedisEnv
  api : ApiResult
  now : Int
  nowIso : String

/-- The process-wide `memory_cache` dict (`app.py` line 66). -/
structure MemCache where
  rates : Json
  updatedAt : Json
  timestamp : Option Int
deriving Repr

/-- `memory_cache` as initialised at process start. -/
def memory_cache_init : MemCache := ⟨.null, .null, none⟩

/-- `CACHE_KEY` (`app.py` line 61). -/
def CACHE_KEY : String := "rates"

/-- `CACHE_EXPIRATION` in seconds (`app.py` line 62). -/
def CACHE_EXPIRATION : Nat := 300

/-- Observable outcome of one `get_rates` call: the returned pair, the
new `memory_cache`, whether the upstream API was contacted, and the
`setex` write attempted on the external cache (key, expiration,
serialized value), if any. -/
structure RResult where
  rates : Json
  updatedAt : Json
  mem : MemCache
  apiCalled : Bool
  redisWrite : Option (String × Nat × String)
deriving Repr

/-- Python dict lookup on a parsed-JSON value (last occurrence wins, as
`json.loads` builds a dict): `none` models the raised `KeyError` /
`TypeError` of `data[k]` on a missing key or a non-dict value. -/
def lookupLast (k : String) : List (String × Json) → Option Json
  | [] => none
  | (k', v) :: rest =>
    match lookupLast k rest with
    | some r => some r
    | none => if k' = k then some v else none

/-- `data[k]` on a Python value decoded from JSON. -/
def Json.item : Json → String → Option Json
  | .obj ms, k => lookupLast k ms
  | _, _ => none

/-- The `try` body of tier 1 (`app.py` lines 75–87): read the external
cache, decode, extract both fields.  `.ok (some (rv, uv))` is a hit
(early return), `.ok none` a clean miss, and `.error (e, lr, lu)` a
raised exception together with the values the local variables `rates`
and `updated_at` hold at the moment of the raise (`rates` is already
assigned when `data['updatedAt']` raises). -/
def tier1Try (g : RedisGet) : Except (Exc × Json × Json) (Option (Json × Json)) :=
  match g with
  | .exn e => .error (e, .null, .null)
  | .val none => .ok none
  | .val (some s) =>
    if s = "" then .ok none
    else
      match Json.loads s with
      | none => .error (.other, .null, .null)
      | some data =>
        match data.item "rates" with
        | none => .error (.other, .null, .null)
        | some rv =>
          match data.item "updatedAt" with
          | none => .error (.other, rv, .null)
          | some uv => .ok (some (rv, uv))

/-- Tier 1 with its exception handlers (`app.py` lines 74–91): skipped
when there is no Redis client; `except redis.RedisError` and
`except Exception` both absorb the exception and fall through with the
locals as they were at the raise. -/
def tier1Step (redis : Option RedisEnv) : Except Exc (Option (Json × Json) × Json × Json) :=
  match redis with
  | none => .ok (none, .null, .null)
  | some r =>
    match tier1Try r.get with
    | .ok hit => .ok (hit, .null, .null)
    | .error (e, lr, lu) =>
      if catchRedisError e then .ok (none, lr, lu)
      else if catchException e then .ok (none, lr, lu)
      else .error e

/-- Tier 2 guard (`app.py` lines 94–96): `memory_cache['rates']` and
`memory_cache['timestamp']` are truthy and the entry is younger than
600 seconds. -/
def tier2Hit (mem : MemCache) (now : Int) : Bool :=
  jsonTruthy mem.rates &&
    (match mem.timestamp with
     | some ts => decide (now - ts < 600)
     | none => false)

/-- The `try` body of tier 3 up to extracting the `rates` field
(`app.py` lines 101–107): `requests.get` may raise; `raise_for_status`
raises `HTTPError` for 4xx/5xx; `response.json()` may raise; then
`api_data['rates']` may raise. -/
def tier3Try (api : ApiResult) : Except Exc Json :=
  match api with
  | .exn e => .error e
  | .response st body =>
    if 400 ≤ st ∧ st < 600 then .error (.httpError st)
    else
      match body with
      | .exn e => .error e
      | .ok apiData =>
        match apiData.item "rates" with
        | none => .error .other
        | some rv => .ok rv

/-- The `get_rates` cache-resolution routine (`app.py` lines 68–146).
Returns `.error e` only if an exception would escape to the caller. -/
def get_rates (env : Env) (mem0 : MemCache) : Except Exc RResult :=
  match tier1Step env.redis with
  | .error e => .error e
  | .ok (some (rv, uv), _, _) =>
      .ok ⟨rv, uv, ⟨rv, uv, some env.now⟩, false, none⟩
  | .ok (none, lr, lu) =>
    if tier2Hit mem0 env.now then
      .ok ⟨mem0.rates, mem0.updatedAt, mem0, false, none⟩
    else
      match tier3Try env.api with
      | .ok rv =>
          let ua := Json.str env.nowIso
          let wr := if env.redis.isSome then
              some (CACHE_KEY, CACHE_EXPIRATION,
                Json.dumps (Json.obj [("rates", rv), ("updatedAt", ua)]))
            else none
          .ok ⟨rv, ua, ⟨rv, ua, some env.now⟩, true, wr⟩
      | .error e =>
        match e with
        | .httpError st =>
            if st = 429 ∧ jsonTruthy mem0.rates = true then
              .ok ⟨mem0.rates, mem0.updatedAt, mem0, true, none⟩
            else
              .ok ⟨lr, lu, mem0, true, none⟩
        | _ =>
            if catchException e then
              if jsonTruthy mem0.rates then
                .ok ⟨mem0.rates, mem0.updatedAt, mem0, true, none⟩
              else
                .ok ⟨lr, lu, mem0, true, none⟩
            else .error e

/-- The parts of an outcome visible to the caller and the collaborators
(everything except which stale `memory_cache` object is embedded in
`mem`). -/
def observables (r : Except Exc RResult) :
    Except Exc (Json × Json × Bool × Option (String × Nat × String)) :=
  r.map fun x => (x.rates, x.updatedAt, x.apiCalled, x.redisWrite)

/-- Tier 1 never lets an exception escape: both `except` clauses absorb
everything that the `try` body can raise. -/
theorem tier1Step_isOk (redis : Option RedisEnv) : ∃ x, tier1Step redis = .ok x := by
  cases redis with
  | none => exact ⟨_, rfl⟩
  | some r =>
      cases h : tier1Try r.get with
      | ok hit => exact ⟨(hit, Json.null, Json.null), by simp [tier1Step, h]⟩
      | error elul =>
          obtain ⟨e, lr, lu⟩ := elul
          refine ⟨(none, lr, lu), ?_⟩
          cases hc : catchRedisError e <;> simp [tier1Step, h, hc, catchException]

/-! ## The claims -/

/-- C2: whenever the external cache holds a valid serialized entry under
the fixed key (the Redis read returns a truthy string that deserializes
to an object carrying both fields), `get_rates` returns that entry's
rates and updatedAt, does not contact the upstream API, and overwrites
the memory cache with the same pair stamped with the current local
time. -/
theorem claim2_redis_hit (env : Env) (mem0 : MemCache) (r : RedisEnv) (s : String)
    (d rv uv : Json)
    (h1 : env.redis = some r) (h2 : r.get = .val (some s)) (h3 : ¬s = "")
    (h4 : Json.loads s = some d)
    (h5 : d.item "rates" = some rv) (h6 : d.item "updatedAt" = some uv) :
    get_rates env mem0 = .ok ⟨rv, uv, ⟨rv, uv, some env.now⟩, false, none⟩ := by
  have ht : tier1Step env.redis = .ok (some (rv, uv), Json.null, Json.null) := by
    simp [tier1Step, h1, tier1Try, h2, h3, h4, h5, h6]
  simp [get_rates, ht]

/-- Witness for C2 at a concrete cache entry. -/
theorem claim2_witness :
    Json.loads "\x7b\"rates\":\x7b\"usd\":\x7b\"value\":1\x7d\x7d,\"updatedAt\":\"T\"\x7d"
        = some (Json.obj [("rates", Json.obj [("usd", Json.obj [("value", Json.num "1")])]),
            ("updatedAt", Json.str "T")]) ∧
    get_rates
        ⟨some ⟨.val (some "\x7b\"rates\":\x7b\"usd\":\x7b\"value\":1\x7d\x7d,\"updatedAt\":\"T\"\x7d"), true⟩,
          .exn .other, 5, "x"⟩ memory_cache_init
      = .ok ⟨Json.obj [("usd", Json.obj [("value", Json.num "1")])], Json.str "T",
          ⟨Json.obj [("usd", Json.obj [("value", Json.num "1")])], Json.str "T", some 5⟩,
          false, none⟩ :=
  ⟨rfl,
    claim2_redis_hit
      ⟨some ⟨.val (some "\x7b\"rates\":\x7b\"usd\":\x7b\"value\":1\x7d\x7d,\"updatedAt\":\"T\"\x7d"), true⟩,
        .exn .other, 5, "x"⟩
      memory_cache_init
      ⟨.val (some "\x7b\"rates\":\x7b\"usd\":\x7b\"value\":1\x7d\x7d,\"updatedAt\":\"T\"\x7d"), true⟩
      "\x7b\"rates\":\x7b\"usd\":\x7b\"value\":1\x7d\x7d,\"updatedAt\":\"T\"\x7d"
      (Json.obj [("rates", Json.obj [("usd", Json.obj [("value", Json.num "1")])]),
        ("updatedAt", Json.str "T")])
      (Json.obj [("usd", Json.obj [("value", Json.num "1")])]) (Json.str "T")
      rfl rfl (by simp) rfl rfl rfl⟩

/-- C3: when tier 1 falls through (external cache missing, empty,
erroring or undecodable) and the memory cache holds a truthy rates
value younger than 600 seconds, `get_rates` returns the memory cache's
rates and updatedAt unchanged and does not contact the upstream API. -/
theorem claim3_memory_fresh (env : Env) (mem0 : MemCache) (lr lu : Json) (ts : Int)
    (h1 : tier1Step env.redis = .ok (none, lr, lu))
    (h2 : jsonTruthy mem0.rates = true)
    (h3 : mem0.timestamp = some ts)
    (h4 : env.now - ts < 600) :
    get_rates env mem0 = .ok ⟨mem0.rates, mem0.updatedAt, mem0, false, none⟩ := by
  have hhit : tier2Hit mem0 env.now = true := by
    simp [tier2Hit, h2, h3, h4]
  simp [get_rates, h1, hhit]

/-- Witness for C3 at a concrete fresh memory cache. -/
theorem claim3_witness :
    jsonTruthy (Json.obj [("usd", Json.num "9")]) = true ∧
    (100 : Int) - 50 < 600 ∧
    get_rates ⟨none, .exn .other, 100, "x"⟩
        ⟨Json.obj [("usd", Json.num "9")], Json.str "T", some 50⟩
      = .ok ⟨Json.obj [("usd", Json.num "9")], Json.str "T",
          ⟨Json.obj [("usd", Json.num "9")], Json.str "T", some 50⟩, false, none⟩ :=
  ⟨rfl, by decide,
    claim3_memory_fresh ⟨none, .exn .other, 100, "x"⟩
      ⟨Json.obj [("usd", Json.num "9")], Json.str "T", some 50⟩
      Json.null Json.null 50 rfl rfl rfl (by decide)⟩

/-- C4: when tier 1 falls through, the memory cache is not fresh (absent
timestamp or at least 600 seconds old), the upstream responds HTTP 429,
and the memory cache holds a truthy stored rates value, `get_rates`
returns that stored value regardless of its age. -/
theorem claim4_rate_limit_stale (env : Env) (mem0 : MemCache) (lr lu : Json) (b : ApiBody)
    (h1 : tier1Step env.redis = .ok (none, lr, lu))
    (h2 : tier2Hit mem0 env.now = false)
    (h3 : jsonTruthy mem0.rates = true)
    (h4 : env.api = .response 429 b) :
    get_rates env mem0 = .ok ⟨mem0.rates, mem0.updatedAt, mem0, true, none⟩ := by
  have ht : tier3Try env.api = .error (.httpError 429) := by
    simp [tier3Try, h4]
  simp [get_rates, h1, h2, ht, h3]

/-- Witness for C4 at a concrete stale memory cache (20 minutes old). -/
theorem claim4_witness :
    tier2Hit ⟨Json.obj [("usd", Json.num "9")], Json.str "old", some 0⟩ 1200 = false ∧
    jsonTruthy (Json.obj [("usd", Json.num "9")]) = true ∧
    get_rates ⟨none, .response 429 (.ok .null), 1200, "x"⟩
        ⟨Json.obj [("usd", Json.num "9")], Json.str "old", some 0⟩
      = .ok ⟨Json.obj [("usd", Json.num "9")], Json.str "old",
          ⟨Json.obj [("usd", Json.num "9")], Json.str "old", some 0⟩, true, none⟩ :=
  ⟨by decide, rfl,
    claim4_rate_limit_stale ⟨none, .response 429 (.ok .null), 1200, "x"⟩
      ⟨Json.obj [("usd", Json.num "9")], Json.str "old", some 0⟩
      Json.null Json.null (.ok .null) rfl (by decide) rfl rfl⟩

/-- C5: with an external cache configured, when neither cache tier hits
and the upstream responds successfully with a body carrying a `rates`
field, `get_rates` returns that rates value with updatedAt stamped from
the current time, overwrites the memory cache with the snapshot, and
attempts the write-through `setex` on the external cache under the fixed
key with the serialized snapshot and the 300-second expiration. -/
theorem claim5_upstream_success (env : Env) (mem0 : MemCache) (r : RedisEnv) (lr lu : Json)
    (st : Nat) (body : Json) (rv : Json)
    (h0 : env.redis = some r)
    (h1 : tier1Step env.redis = .ok (none, lr, lu))
    (h2 : tier2Hit mem0 env.now = false)
    (h3 : env.api = .response st (.ok body))
    (h4 : ¬(400 ≤ st ∧ st < 600))
    (h5 : body.item "rates" = some rv) :
    get_rates env mem0 =
      .ok ⟨rv, Json.str env.nowIso,
        ⟨rv, Json.str env.nowIso, some env.now⟩, true,
        some (CACHE_KEY, CACHE_EXPIRATION,
          Json.dumps (Json.obj [("rates", rv), ("updatedAt", Json.str env.nowIso)]))⟩ := by
  have ht : tier3Try env.api = .ok rv := by
    simp [tier3Try, h3, h4, h5]
  rw [h0] at h1
  simp [get_rates, h0, h1, h2, ht]

/-- Witness for C5 at a concrete successful upstream response. -/
theorem claim5_witness :
    (Json.obj [("rates", Json.obj [("usd", Json.num "9")])]).item "rates"
        = some (Json.obj [("usd", Json.num "9")]) ∧
    get_rates
        ⟨some ⟨.val none, true⟩,
          .response 200 (.ok (Json.obj [("rates", Json.obj [("usd", Json.num "9")])])),
          7, "2026-01-01T00:00:00"⟩ memory_cache_init
      = .ok ⟨Json.obj [("usd", Json.num "9")], Json.str "2026-01-01T00:00:00",
          ⟨Json.obj [("usd", Json.num "9")], Json.str "2026-01-01T00:00:00", some 7⟩, true,
          some (CACHE_KEY, CACHE_EXPIRATION,
            Json.dumps (Json.obj [("rates", Json.obj [("usd", Json.num "9")]),
              ("updatedAt", Json.str "2026-01-01T00:00:00")]))⟩ :=
  ⟨rfl,
    claim5_upstream_success
      ⟨some ⟨.val none, true⟩,
        .response 200 (.ok (Json.obj [("rates", Json.obj [("usd", Json.num "9")])])),
        7, "2026-01-01T00:00:00"⟩
      memory_cache_init ⟨.val none, true⟩ Json.null Json.null 200
      (Json.obj [("rates", Json.obj [("usd", Json.num "9")])])
      (Json.obj [("usd", Json.num "9")])
      rfl rfl (by decide) rfl (by decide) rfl⟩

/-- C1 counterexample: upstream answers HTTP 500 (a non-2xx, non-429
failure), the memory cache holds a truthy stored value, yet `get_rates`
returns `(None, None)` — the non-429 `HTTPError` handler does not fall
back to the memory cache. -/
theorem claim1_counterexample :
    jsonTruthy (Json.obj [("usd", Json.num "9")]) = true ∧
    get_rates ⟨none, .response 500 (.ok .null), 1000, "x"⟩
        ⟨Json.obj [("usd", Json.num "9")], Json.str "old", some 0⟩
      = .ok ⟨Json.null, Json.null,
          ⟨Json.obj [("usd", Json.num "9")], Json.str "old", some 0⟩, true, none⟩ ∧
    Json.null ≠ Json.obj [("usd", Json.num "9")] :=
  ⟨rfl, rfl, fun h => Json.noConfusion h⟩

/-- C1 amended: the stale-memory fallback fires for upstream failures
that are not `HTTPError`s (timeout, connection error, malformed body,
missing field) — a non-2xx HTTP status other than 429 raises
`HTTPError`, whose handler only falls back on 429 and otherwise lets
the locals `(None, None)` be returned. -/
theorem claim1_amended_non_http_failure (env : Env) (mem0 : MemCache) (lr lu : Json) (e : Exc)
    (h1 : tier1Step env.redis = .ok (none, lr, lu))
    (h2 : tier2Hit mem0 env.now = false)
    (h3 : tier3Try env.api = .error e)
    (h4 : ∀ st, ¬e = .httpError st)
    (h5 : jsonTruthy mem0.rates = true) :
    get_rates env mem0 = .ok ⟨mem0.rates, mem0.updatedAt, mem0, true, none⟩ := by
  cases e with
  | httpError st => exact absurd rfl (h4 st)
  | redisError => simp [get_rates, h1, h2, h3, catchException, h5]
  | other => simp [get_rates, h1, h2, h3, catchException, h5]

/-- Witness for the amended C1: upstream timeout with a stale memory
cache. -/
theorem claim1_witness :
    jsonTruthy (Json.obj [("usd", Json.num "9")]) = true ∧
    tier3Try (ApiResult.exn .other) = .error .other ∧
    get_rates ⟨none, .exn .other, 1200, "x"⟩
        ⟨Json.obj [("usd", Json.num "9")], Json.str "old", some 0⟩
      = .ok ⟨Json.obj [("usd", Json.num "9")], Json.str "old",
          ⟨Json.obj [("usd", Json.num "9")], Json.str "old", some 0⟩, true, none⟩ :=
  ⟨rfl, rfl,
    claim1_amended_non_http_failure ⟨none, .exn .other, 1200, "x"⟩
      ⟨Json.obj [("usd", Json.num "9")], Json.str "old", some 0⟩
      Json.null Json.null .other rfl (by decide) rfl (by intro st h; cases h) rfl⟩

/-- C6 counterexample: the external-cache entry decodes and yields its
`rates` field but lacks `updatedAt`, so the tier-1 read fails after
assigning the local `rates`; with an empty memory cache and a failing
upstream, `get_rates` returns that orphaned rates value with a `None`
updatedAt instead of `(None, None)`. -/
theorem claim6_counterexample :
    get_rates
        ⟨some ⟨.val (some "\x7b\"rates\":\x7b\"usd\":1\x7d\x7d"), true⟩,
          .exn .other, 0, "x"⟩ memory_cache_init
      = .ok ⟨Json.obj [("usd", Json.num "1")], Json.null,
          memory_cache_init, true, none⟩ ∧
    Json.obj [("usd", Json.num "1")] ≠ Json.null :=
  ⟨rfl, fun h => Json.noConfusion h⟩

/-- C6 amended: when tier 1 falls through with both locals unset (the
read failed or returned nothing, without first extracting a `rates`
field), the memory cache holds no truthy stored value, and the upstream
fetch fails in any way, `get_rates` returns `(None, None)`. -/
theorem claim6_amended_all_tiers_fail (env : Env) (mem0 : MemCache) (e : Exc)
    (h1 : tier1Step env.redis = .ok (none, Json.null, Json.null))
    (h2 : jsonTruthy mem0.rates = false)
    (h3 : tier3Try env.api = .error e) :
    get_rates env mem0 = .ok ⟨Json.null, Json.null, mem0, true, none⟩ := by
  have h2' : tier2Hit mem0 env.now = false := by simp [tier2Hit, h2]
  cases e with
  | httpError st => simp [get_rates, h1, h2', h3, h2]
  | redisError => simp [get_rates, h1, h2', h3, catchException, h2]
  | other => simp [get_rates, h1, h2', h3, catchException, h2]

/-- Witness for the amended C6: every tier empty or failing. -/
theorem claim6_witness :
    jsonTruthy memory_cache_init.rates = false ∧
    get_rates ⟨none, .exn .other, 0, ""⟩ memory_cache_init
      = .ok ⟨Json.null, Json.null, memory_cache_init, true, none⟩ :=
  ⟨rfl,
    claim6_amended_all_tiers_fail ⟨none, .exn .other, 0, ""⟩ memory_cache_init .other
      rfl rfl rfl⟩

/-- C7: no exception escapes `get_rates` to its caller — whatever the
external cache, the memory cache and the upstream API do (including
raised exceptions, malformed bodies and missing fields), every failure
is absorbed into trying the next tier and the call returns normally. -/
theorem claim7_no_exception_escapes (env : Env) (mem0 : MemCache) :
    (get_rates env mem0).isOk = true := by
  obtain ⟨⟨hit, lr, lu⟩, h1⟩ := tier1Step_isOk env.redis
  cases hit with
  | some p =>
      obtain ⟨rv, uv⟩ := p
      simp [get_rates, h1, Except.isOk, Except.toBool]
  | none =>
      by_cases h2 : tier2Hit mem0 env.now
      · simp [get_rates, h1, h2, Except.isOk, Except.toBool]
      · cases h3 : tier3Try env.api with
        | ok rv =>
            cases env.redis <;>
              simp [get_rates, h1, h2, h3, Except.isOk, Except.toBool]
        | error e =>
            cases e with
            | httpError st =>
                by_cases h4 : st = 429 ∧ jsonTruthy mem0.rates = true
                · simp [get_rates, h1, h2, h3, h4, Except.isOk, Except.toBool]
                · simp [get_rates, h1, h2, h3, h4, Except.isOk, Except.toBool]
            | redisError =>
                cases h5 : jsonTruthy mem0.rates <;>
                  simp [get_rates, h1, h2, h3, h5, catchException,
                    Except.isOk, Except.toBool]
            | other =>
                cases h5 : jsonTruthy mem0.rates <;>
                  simp [get_rates, h1, h2, h3, h5, catchException,
                    Except.isOk, Except.toBool]

/-- C9 counterexample: a memory-cache hit is a successful resolution,
yet the memory cache is left untouched — its stored timestamp (100)
is not replaced with the current time (200). -/
theorem claim9_counterexample :
    get_rates ⟨none, .exn .other, 200, "x"⟩
        ⟨Json.obj [("usd", Json.num "9")], Json.str "T", some 100⟩
      = .ok ⟨Json.obj [("usd", Json.num "9")], Json.str "T",
          ⟨Json.obj [("usd", Json.num "9")], Json.str "T", some 100⟩, false, none⟩ ∧
    some (100 : Int) ≠ some (200 : Int) :=
  ⟨rfl, by decide⟩

/-- C9 amended: the memory cache entry is overwritten (value, updatedAt
and stored timestamp all replaced) on an external-cache hit and on a
successful upstream fetch; on a memory-cache hit it is returned as-is
and left unchanged. -/
theorem claim9_amended_overwrite (env : Env) (mem0 : MemCache) :
    (∀ rv uv lr lu, tier1Step env.redis = .ok (some (rv, uv), lr, lu) →
        (get_rates env mem0).map RResult.mem = .ok ⟨rv, uv, some env.now⟩) ∧
    (∀ lr lu rv, tier1Step env.redis = .ok (none, lr, lu) →
        tier2Hit mem0 env.now = false → tier3Try env.api = .ok rv →
        (get_rates env mem0).map RResult.mem
          = .ok ⟨rv, Json.str env.nowIso, some env.now⟩) ∧
    (∀ lr lu, tier1Step env.redis = .ok (none, lr, lu) →
        tier2Hit mem0 env.now = true →
        (get_rates env mem0).map RResult.mem = .ok mem0) := by
  refine ⟨?_, ?_, ?_⟩
  · intro rv uv lr lu h1
    simp [get_rates, h1, Except.map]
  · intro lr lu rv h1 h2 h3
    simp [get_rates, h1, h2, h3, Except.map]
  · intro lr lu h1 h2
    simp [get_rates, h1, h2, Except.map]

/-- Witness for the amended C9: an external-cache hit overwrites the
memory cache with the entry and the current time. -/
theorem claim9_witness :
    tier1Step (some ⟨.val (some "\x7b\"rates\":\x7b\"usd\":1\x7d,\"updatedAt\":\"T\"\x7d"), true⟩)
      = .ok (some (Json.obj [("usd", Json.num "1")], Json.str "T"), Json.null, Json.null) ∧
    (get_rates
        ⟨some ⟨.val (some "\x7b\"rates\":\x7b\"usd\":1\x7d,\"updatedAt\":\"T\"\x7d"), true⟩,
          .exn .other, 42, "x"⟩ memory_cache_init).map RResult.mem
      = .ok ⟨Json.obj [("usd", Json.num "1")], Json.str "T", some 42⟩ :=
  ⟨rfl,
    (claim9_amended_overwrite
      ⟨some ⟨.val (some "\x7b\"rates\":\x7b\"usd\":1\x7d,\"updatedAt\":\"T\"\x7d"), true⟩,
        .exn .other, 42, "x"⟩ memory_cache_init).1
      (Json.obj [("usd", Json.num "1")]) (Json.str "T") Json.null Json.null rfl⟩

/-- C10: a stored empty rates mapping is treated by every memory-cache
consultation exactly as if nothing were stored: the call's observable
outcome is the same as with `None` in its place (the tier-2 guard and
both upstream-failure fallbacks test truthiness, and an empty dict is
falsy), so an empty mapping is never served from the memory cache. -/
theorem claim10_empty_mapping_ignored (env : Env) (mem0 : MemCache)
    (h : mem0.rates = Json.obj []) :
    observables (get_rates env mem0)
      = observables (get_rates env ⟨Json.null, mem0.updatedAt, mem0.timestamp⟩) := by
  have hT : jsonTruthy mem0.rates = false := by rw [h]; rfl
  have h2 : tier2Hit mem0 env.now = false := by simp [tier2Hit, hT]
  have h2' : tier2Hit ⟨Json.null, mem0.updatedAt, mem0.timestamp⟩ env.now = false := by
    simp [tier2Hit, jsonTruthy]
  obtain ⟨⟨hit, lr, lu⟩, h1⟩ := tier1Step_isOk env.redis
  cases hit with
  | some p =>
      obtain ⟨rv, uv⟩ := p
      simp [get_rates, h1, observables, Except.map]
  | none =>
      have hN : jsonTruthy Json.null = false := rfl
      cases h3 : tier3Try env.api with
      | ok rv =>
          simp [get_rates, h1, h2, h2', h3, observables, Except.map]
      | error e =>
          cases e with
          | httpError st =>
              by_cases h4 : st = 429
              · simp [get_rates, h1, h2, h2', h3, h4, hT, hN, observables, Except.map]
              · simp [get_rates, h1, h2, h2', h3, h4, observables, Except.map]
          | redisError =>
              simp [get_rates, h1, h2, h2', h3, catchException, hT, hN,
                observables, Except.map]
          | other =>
              simp [get_rates, h1, h2, h2', h3, catchException, hT, hN,
                observables, Except.map]

/-- Witness for C10: with an empty mapping stored and a stale timestamp,
a 429 run behaves exactly as with nothing stored. -/
theorem claim10_witness :
    (⟨Json.obj [], Json.str "T", some 0⟩ : MemCache).rates = Json.obj [] ∧
    observables (get_rates ⟨none, .response 429 (.ok .null), 1200, "x"⟩
        ⟨Json.obj [], Json.str "T", some 0⟩)
      = observables (get_rates ⟨none, .response 429 (.ok .null), 1200, "x"⟩
          ⟨Json.null, Json.str "T", some 0⟩) :=
  ⟨rfl,
    claim10_empty_mapping_ignored ⟨none, .response 429 (.ok .null), 1200, "x"⟩
      ⟨Json.obj [], Json.str "T", some 0⟩ rfl⟩

/-- C8: any snapshot `get_rates` hands to the external-cache write
(`json.dumps` of the `{rates, updatedAt}` dict built on upstream
success), when read back under the same key and deserialized with
`json.loads`, yields a value carrying exactly the rates mapping and
updatedAt that were returned (stated for snapshots whose number
literals are well formed, which all parsed upstream bodies are). -/
theorem claim8_write_roundtrip (env : Env) (mem0 : MemCache) (res : RResult)
    (k : String) (ex : Nat) (s : String)
    (h1 : get_rates env mem0 = .ok res)
    (h2 : res.redisWrite = some (k, ex, s))
    (h3 : jsonWF res.rates = true) :
    ∃ d, Json.loads s = some d ∧
      d.item "rates" = some res.rates ∧ d.item "updatedAt" = some res.updatedAt := by
  obtain ⟨⟨hit, lr, lu⟩, ht1⟩ := tier1Step_isOk env.redis
  cases hit with
  | some p =>
      obtain ⟨rv, uv⟩ := p
      simp [get_rates, ht1] at h1
      rw [← h1] at h2
      simp at h2
  | none =>
      by_cases ht2 : tier2Hit mem0 env.now
      · simp [get_rates, ht1, ht2] at h1
        rw [← h1] at h2
        simp at h2
      · cases ht3 : tier3Try env.api with
        | error e =>
            cases e with
            | httpError st =>
                by_cases hc : st = 429 ∧ jsonTruthy mem0.rates = true
                · simp [get_rates, ht1, ht2, ht3, hc] at h1
                  rw [← h1] at h2
                  simp at h2
                · simp [get_rates, ht1, ht2, ht3, hc] at h1
                  rw [← h1] at h2
                  simp at h2
            | redisError =>
                cases hm : jsonTruthy mem0.rates <;>
                  · simp [get_rates, ht1, ht2, ht3, catchException, hm] at h1
                    rw [← h1] at h2
                    simp at h2
            | other =>
                cases hm : jsonTruthy mem0.rates <;>
                  · simp [get_rates, ht1, ht2, ht3, catchException, hm] at h1
                    rw [← h1] at h2
                    simp at h2
        | ok rv =>
            cases hr : env.redis with
            | none =>
                rw [hr] at ht1
                simp [get_rates, hr, ht1, ht2, ht3] at h1
                rw [← h1] at h2
                simp at h2
            | some r =>
                rw [hr] at ht1
                simp [get_rates, hr, ht1, ht2, ht3] at h1
                rw [← h1] at h2 h3
                simp only [RResult.redisWrite, Option.some.injEq] at h2
                simp only [RResult.rates] at h3
                have hs : s = Json.dumps
                    (Json.obj [("rates", rv), ("updatedAt", Json.str env.nowIso)]) := by
                  have := congrArg (fun t => t.2.2) h2
                  simpa using this.symm
                have hwf : jsonWF
                    (Json.obj [("rates", rv), ("updatedAt", Json.str env.nowIso)]) = true := by
                  simp [jsonWF, jsonWFMembers, h3]
                refine ⟨Json.obj [("rates", rv), ("updatedAt", Json.str env.nowIso)],
                  ?_, ?_, ?_⟩
                · rw [hs]
                  exact loads_dumps _ hwf
                · rw [← h1]
                  simp [Json.item, lookupLast]
                · rw [← h1]
                  simp [Json.item, lookupLast]

/-- Witness for C8: the snapshot written on a concrete upstream success
reads back to the identical rates and updatedAt. -/
theorem claim8_witness :
    get_rates
        ⟨some ⟨.val none, true⟩,
          .response 200 (.ok (Json.obj [("rates", Json.obj [("usd", Json.num "9")])])),
          7, "T7"⟩ memory_cache_init
      = .ok ⟨Json.obj [("usd", Json.num "9")], Json.str "T7",
          ⟨Json.obj [("usd", Json.num "9")], Json.str "T7", some 7⟩, true,
          some ("rates", 300,
            Json.dumps (Json.obj [("rates", Json.obj [("usd", Json.num "9")]),
              ("updatedAt", Json.str "T7")]))⟩ ∧
    jsonWF (Json.obj [("usd", Json.num "9")]) = true ∧
    (∃ d, Json.loads (Json.dumps (Json.obj [("rates", Json.obj [("usd", Json.num "9")]),
          ("updatedAt", Json.str "T7")])) = some d ∧
      d.item "rates" = some (Json.obj [("usd", Json.num "9")]) ∧
      d.item "updatedAt" = some (Json.str "T7")) := by
  refine ⟨rfl, rfl, ?_⟩
  exact claim8_write_roundtrip
    ⟨some ⟨.val none, true⟩,
      .response 200 (.ok (Json.obj [("rates", Json.obj [("usd", Json.num "9")])])),
      7, "T7"⟩
    memory_cache_init
    ⟨Json.obj [("usd", Json.num "9")], Json.str "T7",
      ⟨Json.obj [("usd", Json.num "9")], Json.str "T7", some 7⟩, true,
      some ("rates", 300,
        Json.dumps (Json.obj [("rates", Json.obj [("usd", Json.num "9")]),
          ("updatedAt", Json.str "T7")]))⟩
    "rates" 300
    (Json.dumps (Json.obj [("rates", Json.obj [("usd", Json.num "9")]),
      ("updatedAt", Json.str "T7")]))
    rfl rfl rfl
